import Mathlib

/-!
Verification of the SECS chatbot query-understanding and retrieval pipeline.

The development shallowly embeds the Python sources:
  * `src/services/cache_service.py`   (question normalization, the two Q→A caches),
  * `src/services/vector_store.py`    (permission-scoped cosine-similarity search),
  * `src/agents/focal_agent.py`       (tool table, tool selection, focal retrieval),
  * `src/services/count_helper.py`    (regex-based fact derivation),
  * `src/services/chat_service.py`    (pipeline orchestration and answer caching).

Strings are Lean `String`s (lists of unicode scalar values); the Python string
primitives the code relies on (`str.lower`, `str.strip`, the `in` substring
test, the `\w`/`\s` regex classes, `unicodedata` NFKD decomposition) are
modelled on the Latin-1 fragment that the repository's Portuguese data
exercises.  Embedding vectors are lists of rationals and cosine similarity is
computed in `ℝ` (the Python code computes with floats; the real-number model is
the exact idealization).  External collaborators (the embedding provider, the
LLM, the semantic rewriter, the clarification agent, the prompt enricher) are
opaque function parameters, exactly as the spec treats them.
-/

/-! ### Python string primitives (Latin-1 fragment) -/

/-- `str.lower` on the Latin-1 range: ASCII uppercase and Latin-1 uppercase
letters (U+00C0–U+00DE, the multiplication sign U+00D7 excepted) map to their
lowercase forms 32 code points higher; everything else is unchanged. -/
def pyToLower (c : Char) : Char :=
  if 65 ≤ c.toNat ∧ c.toNat ≤ 90 then Char.ofNat (c.toNat + 32)
  else if 192 ≤ c.toNat ∧ c.toNat ≤ 222 ∧ c.toNat ≠ 215 then Char.ofNat (c.toNat + 32)
  else c

/-- `s.lower()`. -/
def pyLower (s : String) : String := ⟨s.data.map pyToLower⟩

/-- The Python substring test `needle in hay` (contiguous substring). -/
def strContains (hay needle : String) : Bool := decide (needle.data <:+: hay.data)

/-- The regex class `\s` and the character set stripped by `str.strip()`:
space, tab, newline, carriage return, form feed, vertical tab. -/
def isPyWs (c : Char) : Bool := c.toNat == 32 || (9 ≤ c.toNat && c.toNat ≤ 13)

/-- `str.strip()`: drop leading and trailing whitespace. -/
def trimWs (l : List Char) : List Char :=
  ((l.dropWhile isPyWs).reverse.dropWhile isPyWs).reverse

/-- `s.strip()` on strings. -/
def pyStrip (s : String) : String := ⟨trimWs s.data⟩

/-! ### `unicodedata` NFKD decomposition (Latin-1 fragment) -/

/-- A combining mark (U+0300–U+036F), as recognized by `unicodedata.combining`. -/
def isCombining (c : Char) : Bool := 768 ≤ c.toNat && c.toNat ≤ 879

/-- NFKD decompositions of the precomposed Latin-1 letters: each maps to its
base letter followed by a combining mark (grave U+0300, acute U+0301,
circumflex U+0302, tilde U+0303, diaeresis U+0308, cedilla U+0327). -/
def nfkdTable : List (Char × Char × Char) := [
  ('À', 'A', Char.ofNat 768), ('Á', 'A', Char.ofNat 769), ('Â', 'A', Char.ofNat 770),
  ('Ã', 'A', Char.ofNat 771), ('Ä', 'A', Char.ofNat 776), ('Ç', 'C', Char.ofNat 807),
  ('È', 'E', Char.ofNat 768), ('É', 'E', Char.ofNat 769), ('Ê', 'E', Char.ofNat 770),
  ('Ë', 'E', Char.ofNat 776), ('Ì', 'I', Char.ofNat 768), ('Í', 'I', Char.ofNat 769),
  ('Î', 'I', Char.ofNat 770), ('Ï', 'I', Char.ofNat 776), ('Ñ', 'N', Char.ofNat 771),
  ('Ò', 'O', Char.ofNat 768), ('Ó', 'O', Char.ofNat 769), ('Ô', 'O', Char.ofNat 770),
  ('Õ', 'O', Char.ofNat 771), ('Ö', 'O', Char.ofNat 776), ('Ù', 'U', Char.ofNat 768),
  ('Ú', 'U', Char.ofNat 769), ('Û', 'U', Char.ofNat 770), ('Ü', 'U', Char.ofNat 776),
  ('Ý', 'Y', Char.ofNat 769), ('à', 'a', Char.ofNat 768), ('á', 'a', Char.ofNat 769),
  ('â', 'a', Char.ofNat 770), ('ã', 'a', Char.ofNat 771), ('ä', 'a', Char.ofNat 776),
  ('ç', 'c', Char.ofNat 807), ('è', 'e', Char.ofNat 768), ('é', 'e', Char.ofNat 769),
  ('ê', 'e', Char.ofNat 770), ('ë', 'e', Char.ofNat 776), ('ì', 'i', Char.ofNat 768),
  ('í', 'i', Char.ofNat 769), ('î', 'i', Char.ofNat 770), ('ï', 'i', Char.ofNat 776),
  ('ñ', 'n', Char.ofNat 771), ('ò', 'o', Char.ofNat 768), ('ó', 'o', Char.ofNat 769),
  ('ô', 'o', Char.ofNat 770), ('õ', 'o', Char.ofNat 771), ('ö', 'o', Char.ofNat 776),
  ('ù', 'u', Char.ofNat 768), ('ú', 'u', Char.ofNat 769), ('û', 'u', Char.ofNat 770),
  ('ü', 'u', Char.ofNat 776), ('ý', 'y', Char.ofNat 769), ('ÿ', 'y', Char.ofNat 776)]

/-- `unicodedata.normalize('NFKD', ·)` on one character. -/
def nfkdChar (c : Char) : List Char :=
  match nfkdTable.find? (fun e => e.1 == c) with
  | some e => [e.2.1, e.2.2]
  | none => [c]

/-! ### CacheService (`src/services/cache_service.py`) -/

/-- The regex class `\w` (ASCII fragment): letters, digits, underscore. -/
def isWordChar (c : Char) : Bool :=
  (48 ≤ c.toNat && c.toNat ≤ 57) || (65 ≤ c.toNat && c.toNat ≤ 90) ||
    (97 ≤ c.toNat && c.toNat ≤ 122) || c.toNat == 95

/-- `re.sub(r'\s+', ' ', ·)`: replace each maximal whitespace run by one space. -/
def collapseWs : List Char → List Char
  | [] => []
  | c :: rest =>
    if isPyWs c then
      match rest with
      | [] => [' ']
      | d :: rest2 =>
        if isPyWs d then collapseWs (d :: rest2) else ' ' :: collapseWs (d :: rest2)
    else c :: collapseWs rest

/-- `CacheService.normalize_question`: NFKD-decompose and drop combining marks,
lowercase and strip, drop non-`\w`/non-`\s` characters, collapse whitespace. -/
def CacheService.normalize_question (question : String) : String :=
  let decomposed := (question.data.flatMap nfkdChar).filter (fun c => !(isCombining c))
  let lowered := trimWs (decomposed.map pyToLower)
  let depunct := lowered.filter (fun c => isWordChar c || isPyWs c)
  ⟨collapseWs depunct⟩

/-- `CacheService.should_bypass_cache`: a negative or uncertain answer must not
be served from cache. -/
def CacheService.should_bypass_cache (answer : String) : Bool :=
  let negative_signals := ["não encontrei", "nao encontrei", "não há base",
    "nao ha base", "sem base documental", "não tenho certeza",
    "nao tenho certeza", "não há evidência", "nao ha evidencia",
    "não sei", "nao sei"]
  negative_signals.any (fun signal => strContains (pyLower answer) signal)

/-- A row of the `qa_user_cache` table. -/
structure UserCacheEntry where
  user : String
  normalized : String
  question : String
  answer : String
deriving DecidableEq, Repr

/-- A row of the `qa_global_cache` table. -/
structure GlobalCacheEntry where
  normalized : String
  question : String
  answer : String
deriving DecidableEq, Repr

/-- The `qa_user_cache` table in row order. -/
abbrev UserCache := List UserCacheEntry

/-- The `qa_global_cache` table in row order. -/
abbrev GlobalCache := List GlobalCacheEntry

/-- `CacheService.get_user_answer`: look up by `(user, normalized)`. -/
def CacheService.get_user_answer (cache : UserCache) (user_id question : String) :
    Option String :=
  let normalized := CacheService.normalize_question question
  (cache.find? (fun e => e.user == user_id && e.normalized == normalized)).map
    (fun e => e.answer)

/-- `CacheService.set_user_answer`: `INSERT ... ON CONFLICT(user, normalized)
DO UPDATE` — update the conflicting row in place, else append. -/
def CacheService.set_user_answer (cache : UserCache) (user_id question answer : String) :
    UserCache :=
  let normalized := CacheService.normalize_question question
  let key := fun (e : UserCacheEntry) => e.user == user_id && e.normalized == normalized
  if cache.any key then
    cache.map (fun e => if key e then { e with question := question, answer := answer } else e)
  else
    cache ++ [{ user := user_id, normalized := normalized,
                question := question, answer := answer }]

/-- `CacheService.get_global_answer`: look up by `normalized`. -/
def CacheService.get_global_answer (cache : GlobalCache) (question : String) :
    Option String :=
  let normalized := CacheService.normalize_question question
  (cache.find? (fun e => e.normalized == normalized)).map (fun e => e.answer)

/-- `CacheService.set_global_answer`: `INSERT ... ON CONFLICT(normalized)
DO UPDATE`. -/
def CacheService.set_global_answer (cache : GlobalCache) (question answer : String) :
    GlobalCache :=
  let normalized := CacheService.normalize_question question
  let key := fun (e : GlobalCacheEntry) => e.normalized == normalized
  if cache.any key then
    cache.map (fun e => if key e then { e with question := question, answer := answer } else e)
  else
    cache ++ [{ normalized := normalized, question := question, answer := answer }]

/-! ### VectorStore (`src/services/vector_store.py`) -/

/-- `np.dot` on equal-length vectors, idealized over `ℚ`. -/
def dotQ : List ℚ → List ℚ → ℚ
  | [], _ => 0
  | _, [] => 0
  | a :: as_, b :: bs => a * b + dotQ as_ bs

/-- `np.linalg.norm v = sqrt (v · v)`. -/
noncomputable def vecNorm (v : List ℚ) : ℝ := Real.sqrt ((dotQ v v : ℚ) : ℝ)

/-- Cosine similarity `np.dot(q, v) / (np.linalg.norm(q) * np.linalg.norm(v))`. -/
noncomputable def cosineSim (q v : List ℚ) : ℝ :=
  ((dotQ q v : ℚ) : ℝ) / (vecNorm q * vecNorm v)

/-- One row of the scan `SELECT ... FROM chunks c JOIN documentos d ON
c.documento_id = d.id`: the chunk columns together with the joined document
columns, in table-scan (insertion) order.  `user_id` is `none` for a SQL NULL;
`is_global` is the truth of `d.is_global = 1`. -/
structure Row where
  chunk_id : Nat
  conteudo : String
  embedding : List ℚ
  metadata : String
  posicao : Nat
  tipo : String
  titulo : String
  numero : String
  data : String
  conselho : String
  user_id : Option String
  is_global : Bool
deriving DecidableEq, Repr

/-- The result dict appended for each admissible chunk. -/
structure SearchResult where
  chunk_id : Nat
  conteudo : String
  similarity : ℝ
  tipo : String
  titulo : String
  numero : String
  data : String
  conselho : String
  posicao : Nat
  user_id : Option String
  is_global : Bool

/-- Python truthiness of the `user_id` argument: `if user_id:` is false for
`None` and for the empty string. -/
def pyTruthy : Option String → Bool
  | none => false
  | some s => !(s == "")

/-- The SQL permission filter: `WHERE d.is_global = 1 OR d.user_id = ?` when a
truthy `user_id` is supplied, else `WHERE d.is_global = 1`.  A NULL `d.user_id`
never equals the parameter. -/
def permissionAdmits (user_id : Option String) (r : Row) : Bool :=
  if pyTruthy user_id then r.is_global || (r.user_id == user_id) else r.is_global

/-- Build the result dict for one row against the query embedding. -/
noncomputable def mkResult (q : List ℚ) (r : Row) : SearchResult :=
  { chunk_id := r.chunk_id, conteudo := r.conteudo,
    similarity := cosineSim q r.embedding, tipo := r.tipo, titulo := r.titulo,
    numero := r.numero, data := r.data, conselho := r.conselho,
    posicao := r.posicao, user_id := r.user_id, is_global := r.is_global }

/-- The ordering used by `results.sort(key=lambda x: x['similarity'],
reverse=True)`: `a` may come before `b` when `b`'s similarity is not larger.
Inserting with this relation reproduces Python's stable descending sort. -/
def simGE (a b : SearchResult) : Prop := b.similarity ≤ a.similarity

noncomputable instance : DecidableRel simGE := fun _ _ => Real.decidableLE _ _

instance : IsTotal SearchResult simGE := ⟨fun a b => le_total b.similarity a.similarity⟩

instance : IsTrans SearchResult simGE := ⟨fun _ _ _ h1 h2 => le_trans h2 h1⟩

/-- Python list slicing `l[:k]` for an arbitrary integer `k`: a nonnegative `k`
keeps the first `k` elements; a negative `k` drops the last `-k`. -/
def pySliceTo {α : Type} (k : ℤ) (l : List α) : List α :=
  l.take (Int.toNat (if 0 ≤ k then k else (l.length : ℤ) + k))

/-- The scored admissible scan results, in table-scan order. -/
noncomputable def admissibleScored (q : List ℚ) (user_id : Option String)
    (rows : List Row) : List SearchResult :=
  (rows.filter (permissionAdmits user_id)).map (mkResult q)

/-- The vector store: its embedding provider and the joined chunk/document
rows of its database, in insertion order. -/
structure VectorStore where
  embed : String → List ℚ
  rows : List Row

/-- `VectorStore.search_by_embedding`: scan the admissible chunks, score each
by cosine similarity against the supplied embedding, sort descending (stable),
return the top `k`. -/
noncomputable def VectorStore.search_by_embedding (vs : VectorStore)
    (embedding : List ℚ) (k : ℤ) (user_id : Option String) : List SearchResult :=
  pySliceTo k (List.insertionSort simGE (admissibleScored embedding user_id vs.rows))

/-- `VectorStore.search`: embed the query text, then proceed exactly as
`search_by_embedding` (the Python bodies are line-for-line identical). -/
noncomputable def VectorStore.search (vs : VectorStore) (query : String) (k : ℤ)
    (user_id : Option String) : List SearchResult :=
  vs.search_by_embedding (vs.embed query) k user_id

/-- The metadata filters of `VectorStore.search_with_filter`. -/
structure SearchFilters where
  tipo : Option String
  conselho : Option String
  numero : Option String

/-- The extra `WHERE` clauses added by `search_with_filter`. -/
def filterAdmits (f : SearchFilters) (r : Row) : Bool :=
  (match f.tipo with | some t => r.tipo == t | none => true) &&
  (match f.conselho with | some c => r.conselho == c | none => true) &&
  (match f.numero with | some n => r.numero == n | none => true)

/-- `VectorStore.search_with_filter`: permission filter plus metadata filters,
then the same score/sort/slice. -/
noncomputable def VectorStore.search_with_filter (vs : VectorStore) (query : String)
    (f : SearchFilters) (k : ℤ) (user_id : Option String) : List SearchResult :=
  pySliceTo k (List.insertionSort simGE
    (((vs.rows.filter (permissionAdmits user_id)).filter (filterAdmits f)).map
      (mkResult (vs.embed query))))

/-! #### The `documentos` schema and SQL preparation

`VectorStore._init_db` creates the `documentos` table with these columns and
no others; `search`/`search_by_embedding` reference further document columns
in their SQL.  SQLite rejects a statement referencing a column absent from the
schema at prepare time, before looking at any data. -/

/-- Columns of `documentos` as created by `VectorStore._init_db`. -/
def initDocumentosColumns : List String :=
  ["id", "tipo", "titulo", "numero", "data", "conselho", "caminho",
   "hash_sha256", "criado_em"]

/-- Document columns referenced by the SQL of `search`/`search_by_embedding`
(join key, selected columns, permission filter). -/
def searchDocumentColumns : List String :=
  ["id", "tipo", "titulo", "numero", "data", "conselho", "user_id", "is_global"]

/-- A `documentos` schema that also carries the permission columns, as in a
deployment whose database was migrated outside this repository. -/
def migratedDocumentosColumns : List String :=
  initDocumentosColumns ++ ["user_id", "is_global"]

/-- SQLite statement preparation: fail on the first referenced column missing
from the schema. -/
def sqlPrepare (schema refs : List String) : Except String Unit :=
  match refs.find? (fun c => !(schema.contains c)) with
  | some c => Except.error ("no such column: " ++ c)
  | none => Except.ok ()

/-- `VectorStore.search` including the prepare step of its SQL against the
given `documentos` schema. -/
noncomputable def VectorStore.searchChecked (docColumns : List String)
    (vs : VectorStore) (query : String) (k : ℤ) (user_id : Option String) :
    Except String (List SearchResult) :=
  match sqlPrepare docColumns searchDocumentColumns with
  | Except.error e => Except.error e
  | Except.ok _ => Except.ok (vs.search query k user_id)

/-! ### FocalAgent (`src/agents/focal_agent.py`) -/

/-- Configuration of one focal tool. -/
structure ToolConfig where
  name : String
  detect_terms : List String
  filter_terms : List String
  description : String
deriving DecidableEq, Repr

/-- The static tool table, in priority order. -/
def TOOLS : List ToolConfig := [
  { name := "pauta",
    detect_terms := ["pauta", "agenda", "ordem do dia"],
    filter_terms := ["pauta", "agenda", "convocacao"],
    description := "Busca pautas e agendas de reuniões" },
  { name := "ata",
    detect_terms := ["ata", "sessao", "sessão", "reuniao", "reunião"],
    filter_terms := ["ata"],
    description := "Busca atas de reuniões" },
  { name := "votacao",
    detect_terms := ["votacao", "votação", "resultado", "quorum", "voto", "aprovad"],
    filter_terms := ["votacao", "ata"],
    description := "Busca informações sobre votações" },
  { name := "participantes",
    detect_terms := ["participantes", "presenca", "presença", "assinaturas", "quem participou"],
    filter_terms := ["participantes", "assinaturas", "ata"],
    description := "Busca lista de participantes" },
  { name := "resolucao",
    detect_terms := ["resolucao", "resolução"],
    filter_terms := ["resolucao"],
    description := "Busca resoluções" },
  { name := "portaria",
    detect_terms := ["portaria"],
    filter_terms := ["portaria"],
    description := "Busca portarias" },
  { name := "data_reuniao",
    detect_terms := ["quando foi", "data da reuniao", "data da reunião", "que dia", "quando ocorreu"],
    filter_terms := ["ata", "agenda", "pauta", "convocacao"],
    description := "Busca datas de reuniões" }]

/-- `any(term in q for term in tool.detect_terms)` against a lowercased question. -/
def toolMatches (q : String) (tool : ToolConfig) : Bool :=
  tool.detect_terms.any (fun term => strContains q term)

/-- `FocalAgent.pick_tool`: the first tool of the table one of whose detect
terms occurs in the lowercased question. -/
def FocalAgent.pick_tool (question : String) : Option ToolConfig :=
  TOOLS.find? (toolMatches (pyLower question))

/-- Result of a focal-agent run. -/
structure AgentResult where
  tool : Option String
  chunks : List SearchResult
  enhanced_query : String

/-- `FocalAgent.run`: pick a tool; boost the query for some tools; for the
four exact-type tools search with a `tipo` filter, otherwise search and
post-filter by the tool's filter terms in chunk text or title. -/
noncomputable def FocalAgent.run (vs : VectorStore) (question : String) (k : ℤ)
    (user_id : Option String) : AgentResult :=
  match FocalAgent.pick_tool question with
  | none => { tool := none, chunks := [], enhanced_query := question }
  | some tool =>
    let enhanced_query :=
      if tool.name == "data_reuniao" then
        question ++ " data reunião sessão ata agenda pauta convocação"
      else if tool.name == "votacao" then
        question ++ " votação resultado quórum aprovada"
      else if tool.name == "participantes" then
        question ++ " participantes presença assinaturas lista"
      else question
    if ["pauta", "ata", "resolucao", "portaria"].contains tool.name then
      { tool := some tool.name,
        chunks := vs.search_with_filter enhanced_query
          { tipo := some tool.name, conselho := none, numero := none } k user_id,
        enhanced_query := enhanced_query }
    else
      let results := vs.search enhanced_query k user_id
      let chunks :=
        if !tool.filter_terms.isEmpty then
          pySliceTo k (results.filter (fun r =>
            tool.filter_terms.any (fun term =>
              strContains (pyLower r.conteudo) term || strContains (pyLower r.titulo) term)))
        else results
      { tool := some tool.name, chunks := chunks, enhanced_query := enhanced_query }

/-! ### CountHelper (`src/services/count_helper.py`)

The regex patterns of `count_helper.py` are embedded as explicit matchers.
`re.search` scans start positions left to right; at a fixed position the
greedy pieces (`\d+`, `\s+`, `s?`, `(?:a\s+)?`) never need more backtracking
than the one inlined fallback, because the piece that follows each of them can
never match a character the greedy piece consumed. -/

/-- `(\d+)`: a maximal nonempty digit run. -/
def eatDigits (l : List Char) : Option (List Char × List Char) :=
  let d := l.takeWhile Char.isDigit
  if d.isEmpty then none else some (d, l.dropWhile Char.isDigit)

/-- `\s+`: at least one whitespace character, consumed maximally. -/
def eatWs1 (l : List Char) : Option (List Char) :=
  match l with
  | c :: rest => if isPyWs c then some (rest.dropWhile isPyWs) else none
  | [] => none

/-- A case-insensitive literal (the pattern is given lowercase). -/
def eatLitCI : List Char → List Char → Option (List Char)
  | [], l => some l
  | _ :: _, [] => none
  | p :: ps, c :: cs => if pyToLower c == p then eatLitCI ps cs else none

/-- A case-insensitive character class such as `[oa]` or `[oó]`. -/
def eatClass (cls : List Char) (l : List Char) : Option (List Char) :=
  match l with
  | c :: rest => if cls.contains (pyToLower c) then some rest else none
  | [] => none

/-- An optional character (`s?`), taken greedily. -/
def eatOptChar (ch : Char) (l : List Char) : List Char :=
  match l with
  | c :: rest => if pyToLower c == ch then rest else l
  | [] => l

/-- Scan start positions left to right, returning the first position's match
(`re.search` semantics). -/
def scanOpt {α : Type} (p : List Char → Option α) : List Char → Option α
  | [] => p []
  | c :: rest =>
    match p (c :: rest) with
    | some r => some r
    | none => scanOpt p rest

/-- The lazy tail `.*?(\d+)\s+<lit>` of the voting pattern: skip the fewest
characters (never a newline, since `re.DOTALL` is not set) that let
`(\d+)\s+<lit>` match. -/
def lazyNumLit (lit : List Char) : List Char → Option (List Char × List Char)
  | [] => none
  | c :: rest =>
    match (do
      let (d, l1) ← eatDigits (c :: rest)
      let l2 ← eatWs1 l1
      let l3 ← eatLitCI lit l2
      pure (d, l3)) with
    | some r => some r
    | none => if c == '\n' then none else lazyNumLit lit rest

/-- The pattern `(\d+)\s+votos?\s+(?:a\s+)?favor.*?(\d+)\s+contra.*?(\d+)\s+absten`
anchored at the current position (case-insensitive). -/
def matchVotingAt (l : List Char) : Option (String × String × String) :=
  match eatDigits l with
  | none => none
  | some (favor, l1) =>
  match eatWs1 l1 with
  | none => none
  | some l2 =>
  match eatLitCI "voto".data l2 with
  | none => none
  | some l3 =>
  match eatWs1 (eatOptChar 's' l3) with
  | none => none
  | some l5 =>
  let withA : Option (List Char) :=
    match l5 with
    | c :: rest =>
      if pyToLower c == 'a' then
        match eatWs1 rest with
        | some r => eatLitCI "favor".data r
        | none => none
      else none
    | [] => none
  match (match withA with | some r => some r | none => eatLitCI "favor".data l5) with
  | none => none
  | some l6 =>
  match lazyNumLit "contra".data l6 with
  | none => none
  | some (contra, l7) =>
  match lazyNumLit "absten".data l7 with
  | none => none
  | some (abstencoes, _) => some (⟨favor⟩, ⟨contra⟩, ⟨abstencoes⟩)

/-- `aprovad[oa]\s+por\s+<word>` anchored at the current position. -/
def matchAprovadoAt (word : List Char) (l : List Char) : Option Unit := do
  let l1 ← eatLitCI "aprovad".data l
  let l2 ← eatClass ['o', 'a'] l1
  let l3 ← eatWs1 l2
  let l4 ← eatLitCI "por".data l3
  let l5 ← eatWs1 l4
  let _ ← eatLitCI word l5
  pure ()

/-- `int(s)` on a digit run. -/
def strToNat (s : String) : Nat :=
  s.data.foldl (fun n c => 10 * n + (c.toNat - 48)) 0

/-- The facts `_derive_voting_counts` extracts from one chunk's text. -/
def votingFactsOfChunk (content : String) : List String :=
  (match scanOpt matchVotingAt content.data with
   | some (favor, contra, abstencoes) =>
     ["Votação: " ++ favor ++ " a favor, " ++ contra ++ " contra, " ++ abstencoes ++
       " abstenções (total: " ++
       toString (strToNat favor + strToNat contra + strToNat abstencoes) ++ ")"]
   | none => []) ++
  (if (scanOpt (matchAprovadoAt "unanimidade".data) content.data).isSome then
    ["Aprovado por unanimidade"] else []) ++
  (if (scanOpt (matchAprovadoAt "maioria".data) content.data).isSome then
    ["Aprovado por maioria"] else [])

/-- `CountHelper._derive_voting_counts` over the chunks' `conteudo` fields. -/
def CountHelper.derive_voting_counts (chunks : List String) : List String :=
  chunks.flatMap votingFactsOfChunk

/-- The lazy group of `presentes:\s*(.+?)(?:\n|$)` after the literal: try the
maximal `\s*` consumption first, backtracking toward the empty one, and
capture minimally up to the first newline or the end. -/
def presentesGroupAux (l : List Char) : Nat → Option (List Char)
  | 0 =>
    match l with
    | c :: _ => if c == '\n' then none else some (l.takeWhile (fun c2 => !(c2 == '\n')))
    | [] => none
  | k + 1 =>
    match l.drop (k + 1) with
    | c :: _ =>
      if c == '\n' then presentesGroupAux l k
      else some ((l.drop (k + 1)).takeWhile (fun c2 => !(c2 == '\n')))
    | [] => presentesGroupAux l k

/-- `\s*(.+?)(?:\n|$)` at the current position. -/
def presentesGroup (l : List Char) : Option (List Char) :=
  presentesGroupAux l (l.takeWhile isPyWs).length

/-- `re.split(r'[,;]', ·)`. -/
def splitCommaSemi : List Char → List (List Char)
  | [] => [[]]
  | c :: rest =>
    if c == ',' || c == ';' then [] :: splitCommaSemi rest
    else
      match splitCommaSemi rest with
      | g :: gs => (c :: g) :: gs
      | [] => [[c]]

/-- Strip each split name and keep those longer than 3 characters. -/
def participantNames (g : List Char) : List String :=
  ((splitCommaSemi g).map trimWs).filterMap
    (fun n => if 3 < n.length then some (⟨n⟩ : String) else none)

/-- Insertion into the `participants` set (only its size is ever used). -/
def insertNew (s : List String) (x : String) : List String :=
  if s.contains x then s else s ++ [x]

/-- `CountHelper._derive_participant_counts` over the chunks' `conteudo`
fields: collect distinct names after a `presentes:` marker, emit a fact for
each `(\d+)\s+participantes?` match, and close with the distinct-name count. -/
def CountHelper.derive_participant_counts (chunks : List String) : List String :=
  let step := fun (acc : List String × List String) (content : String) =>
    let participants :=
      if strContains (pyLower content) "presentes:" then
        match scanOpt (fun l =>
          match eatLitCI "presentes:".data l with
          | some tail => presentesGroup tail
          | none => none) content.data with
        | some g => (participantNames g).foldl insertNew acc.2
        | none => acc.2
      else acc.2
    let facts :=
      match scanOpt (fun l => do
        let (d, l1) ← eatDigits l
        let l2 ← eatWs1 l1
        let _ ← eatLitCI "participante".data l2
        pure d) content.data with
      | some d => acc.1 ++ ["Total de participantes: " ++ (⟨d⟩ : String)]
      | none => acc.1
    (facts, participants)
  let out := chunks.foldl step ([], [])
  if out.2.isEmpty then out.1
  else out.1 ++ ["Participantes identificados: " ++ toString out.2.length]

/-- `qu[oó]rum\s+de\s+(\d+)` at the current position. -/
def matchQuorumDeAt (l : List Char) : Option (List Char) := do
  let l1 ← eatLitCI "qu".data l
  let l2 ← eatClass ['o', 'ó'] l1
  let l3 ← eatLitCI "rum".data l2
  let l4 ← eatWs1 l3
  let l5 ← eatLitCI "de".data l4
  let l6 ← eatWs1 l5
  let (d, _) ← eatDigits l6
  pure d

/-- `qu[oó]rum\s+atingido` at the current position. -/
def matchQuorumAtingidoAt (l : List Char) : Option Unit := do
  let l1 ← eatLitCI "qu".data l
  let l2 ← eatClass ['o', 'ó'] l1
  let l3 ← eatLitCI "rum".data l2
  let l4 ← eatWs1 l3
  let _ ← eatLitCI "atingido".data l4
  pure ()

/-- `sem\s+qu[oó]rum` at the current position. -/
def matchSemQuorumAt (l : List Char) : Option Unit := do
  let l1 ← eatLitCI "sem".data l
  let l2 ← eatWs1 l1
  let l3 ← eatLitCI "qu".data l2
  let l4 ← eatClass ['o', 'ó'] l3
  let _ ← eatLitCI "rum".data l4
  pure ()

/-- `CountHelper._derive_quorum_info` over the chunks' `conteudo` fields. -/
def CountHelper.derive_quorum_info (chunks : List String) : List String :=
  chunks.flatMap (fun content =>
    (match scanOpt matchQuorumDeAt content.data with
     | some d => ["Quórum: " ++ (⟨d⟩ : String)]
     | none => []) ++
    (if (scanOpt matchQuorumAtingidoAt content.data).isSome then
      ["Quórum atingido"] else []) ++
    (if (scanOpt matchSemQuorumAt content.data).isSome then ["Sem quórum"] else []))

/-- `CountHelper.derive_counts`: each fact category fires only when its intent
keywords occur in the lowercased question; `chunks` carries the retrieved
chunks' `conteudo` fields (the only dict key the Python function reads). -/
def CountHelper.derive_counts (question : String) (chunks : List String) : List String :=
  let q_lower := pyLower question
  (if ["votacao", "votação", "voto", "aprovad", "resultado"].any
      (fun t => strContains q_lower t)
   then CountHelper.derive_voting_counts chunks else []) ++
  (if ["participantes", "presenca", "presença", "quem", "quantos"].any
      (fun t => strContains q_lower t)
   then CountHelper.derive_participant_counts chunks else []) ++
  (if strContains q_lower "quorum" || strContains q_lower "quórum"
   then CountHelper.derive_quorum_info chunks else [])

/-! ### ChatService (`src/services/chat_service.py`) -/

/-- A chat message. -/
structure ChatMessage where
  role : String
  content : String

/-- A clarification request (`src/agents/clarification_agent.py` output, as
consumed by the orchestrator). -/
structure Clarification where
  question : String
  options : List String
  confidence : ℚ

/-- `ChatService._is_negative`: the orchestrator's own negative-signal test. -/
def ChatService.is_negative (answer : String) : Bool :=
  let signals := ["não encontrei", "nao encontrei", "não há base", "nao ha base",
    "sem base documental", "não tenho certeza", "nao tenho certeza",
    "sem informação", "sem informacao"]
  signals.any (fun signal => strContains (pyLower answer) signal)

/-- `history[-10:]`. -/
def pyTakeLast {α : Type} (n : Nat) (l : List α) : List α := l.drop (l.length - n)

/-- The clarification message assembled by `ChatService.answer`. -/
def clarificationText (c : Clarification) : String :=
  "🤔 " ++ c.question ++ "\n\n" ++
  (if c.options.isEmpty then ""
   else "**Opções:**\n" ++ String.join (c.options.map (fun opt => "- " ++ opt ++ "\n"))) ++
  "\nPor favor, seja mais específico."

/-- The collaborators `ChatService` is constructed with.  The generation call,
the semantic rewriter (its `enrich(...).rewritten` field), the prompt enricher
and the clarification agent are external and opaque; a `none`/`false` marks a
collaborator that was not wired (Python `None`). -/
structure ChatDeps where
  llm : List ChatMessage → String
  store : Option VectorStore
  agent : Bool
  hasCache : Bool
  rewriter : Option (String → String)
  counter : Bool
  enricher : Option (String → List SearchResult → List ChatMessage → Option String →
    List String → Option String → List ChatMessage)
  clarifier : Option (String → List SearchResult → Option Clarification)
  system_prompt : String

/-- What one invocation of `ChatService.answer` produces: the response text,
the chunks surfaced with it, and the two cache tables after step 8. -/
structure ChatOutcome where
  text : String
  chunks : List SearchResult
  cacheU : UserCache
  cacheG : GlobalCache

/-- Step 3 of `ChatService.answer`: `self.agent.run(search_query, k=5)` when
the focal agent is wired, else `self.vector_store.search(search_query, k=5)` —
in both calls the requester argument is left at its default `None`. -/
noncomputable def ChatService.retrieve (d : ChatDeps) (search_query : String) :
    List SearchResult × Option String :=
  match d.store with
  | some vs =>
    if d.agent then
      let ar := FocalAgent.run vs search_query 5 none
      (ar.chunks, ar.tool)
    else (vs.search search_query 5 none, none)
  | none => ([], none)

/-- Step 1 of `ChatService.answer` for one cache level: a hit short-circuits
only if the cache is wired and the cached answer is truthy (nonempty) and not
negative (`if cached and not self._is_negative(cached)`). -/
def ChatService.cacheHit (hasCache : Bool) (lookup : Option String) : Option String :=
  if hasCache then
    match lookup with
    | some cached =>
      if !(cached == "") && !(ChatService.is_negative cached) then some cached else none
    | none => none
  else none

/-- Step 5 of `ChatService.answer`: the clarification short-circuit fires when
a clarification agent is wired, chunks were retrieved, and it reports a
clarification with confidence above 0.7. -/
def ChatService.clarificationGate
    (clarifier : Option (String → List SearchResult → Option Clarification))
    (user_message : String) (chunks : List SearchResult) : Option String :=
  match clarifier with
  | some cl =>
    match (if !chunks.isEmpty then cl user_message chunks else none) with
    | some c => if (7 : ℚ) / 10 < c.confidence then some (clarificationText c) else none
    | none => none
  | none => none

/-- Step 8 of `ChatService.answer`: store the response in both caches only
when the cache is wired and the response is nonempty and not negative
(`if self.cache and response_text and not self._is_negative(response_text)`). -/
def ChatService.storeStep (hasCache : Bool) (cacheU : UserCache) (cacheG : GlobalCache)
    (user_message user_id response_text : String) : UserCache × GlobalCache :=
  if hasCache && !(response_text == "") && !(ChatService.is_negative response_text) then
    (CacheService.set_user_answer cacheU user_id user_message response_text,
     CacheService.set_global_answer cacheG user_message response_text)
  else (cacheU, cacheG)

/-- `ChatService.answer`: cache lookup (user then global, negative and empty
hits treated as misses), semantic rewrite, focal retrieval, fact derivation,
clarification short-circuit, generation, and conditional cache storage. -/
noncomputable def ChatService.answer (d : ChatDeps) (cacheU : UserCache)
    (cacheG : GlobalCache) (user_message : String) (history : List ChatMessage)
    (user_id : String) : ChatOutcome :=
  match ChatService.cacheHit d.hasCache
      (CacheService.get_user_answer cacheU user_id user_message) with
  | some cached => { text := cached, chunks := [], cacheU := cacheU, cacheG := cacheG }
  | none =>
    match ChatService.cacheHit d.hasCache
        (CacheService.get_global_answer cacheG user_message) with
    | some cached => { text := cached, chunks := [], cacheU := cacheU, cacheG := cacheG }
    | none =>
      let enrichment : Option String := d.rewriter.map (fun rw => rw user_message)
      let search_query := match enrichment with | some r => r | none => user_message
      let step3 := ChatService.retrieve d search_query
      let chunks := step3.1
      let derived_facts :=
        if d.counter && !chunks.isEmpty then
          CountHelper.derive_counts user_message (chunks.map (fun c => c.conteudo))
        else []
      match ChatService.clarificationGate d.clarifier user_message chunks with
      | some t => { text := t, chunks := [], cacheU := cacheU, cacheG := cacheG }
      | none =>
        let messages :=
          match d.enricher with
          | some enrich =>
            enrich user_message chunks (pyTakeLast 10 history) enrichment derived_facts step3.2
          | none =>
            [{ role := "system", content := d.system_prompt },
             { role := "user", content := user_message }]
        let response_text := d.llm messages
        let stored := ChatService.storeStep d.hasCache cacheU cacheG
          user_message user_id response_text
        { text := response_text, chunks := chunks,
          cacheU := stored.1, cacheG := stored.2 }

/-! ### Helper lemmas -/

/-- Elements of a Python slice `l[:k]` come from `l`. -/
theorem mem_pySliceTo {α : Type} {k : ℤ} {l : List α} {x : α}
    (h : x ∈ pySliceTo k l) : x ∈ l :=
  List.mem_of_mem_take h

/-- A slice `l[:0]` is empty. -/
theorem pySliceTo_zero {α : Type} (l : List α) : pySliceTo 0 l = [] := by
  simp [pySliceTo]

/-- Every search result arises from an admissible row of the store, scored
against the query embedding. -/
theorem mem_search_by_embedding {vs : VectorStore} {e : List ℚ} {k : ℤ}
    {u : Option String} {res : SearchResult}
    (h : res ∈ vs.search_by_embedding e k u) :
    ∃ r ∈ vs.rows, permissionAdmits u r = true ∧ res = mkResult e r := by
  have h1 : res ∈ List.insertionSort simGE (admissibleScored e u vs.rows) :=
    mem_pySliceTo h
  have h2 : res ∈ admissibleScored e u vs.rows :=
    (List.mem_insertionSort simGE).mp h1
  obtain ⟨r, hr, hres⟩ := List.mem_map.mp h2
  exact ⟨r, (List.mem_filter.mp hr).1, (List.mem_filter.mp hr).2, hres.symm⟩

/-- Likewise for `search_with_filter`. -/
theorem mem_search_with_filter {vs : VectorStore} {q : String} {f : SearchFilters}
    {k : ℤ} {u : Option String} {res : SearchResult}
    (h : res ∈ vs.search_with_filter q f k u) :
    ∃ r ∈ vs.rows, permissionAdmits u r = true ∧ filterAdmits f r = true ∧
      res = mkResult (vs.embed q) r := by
  have h1 := mem_pySliceTo h
  have h2 := (List.mem_insertionSort simGE).mp h1
  obtain ⟨r, hr, hres⟩ := List.mem_map.mp h2
  have hr1 := List.mem_filter.mp hr
  have hr2 := List.mem_filter.mp hr1.1
  exact ⟨r, hr2.1, hr2.2, hr1.2, hres.symm⟩

/-- `mkResult` carries the row's ownership fields into the result dict. -/
theorem mkResult_fields (q : List ℚ) (r : Row) :
    (mkResult q r).is_global = r.is_global ∧ (mkResult q r).user_id = r.user_id :=
  ⟨rfl, rfl⟩

/-- A requester that is `None` (or the falsy empty string) admits exactly the
globally owned rows. -/
theorem permissionAdmits_not_truthy {u : Option String} (hu : pyTruthy u = false)
    (r : Row) : permissionAdmits u r = r.is_global := by
  simp [permissionAdmits, hu]

/-- A truthy requester admits exactly global rows and the requester's own. -/
theorem permissionAdmits_truthy {B : String} (hB : B ≠ "") (r : Row) :
    permissionAdmits (some B) r = (r.is_global || r.user_id == some B) := by
  have : pyTruthy (some B) = true := by
    simp [pyTruthy, hB]
  simp [permissionAdmits, this]

/-- With no truthy requester, every result of `search_by_embedding` is global. -/
theorem search_by_embedding_global {vs : VectorStore} {e : List ℚ} {k : ℤ}
    {u : Option String} (hu : pyTruthy u = false) {res : SearchResult}
    (h : res ∈ vs.search_by_embedding e k u) : res.is_global = true := by
  obtain ⟨r, _, hadm, hres⟩ := mem_search_by_embedding h
  rw [permissionAdmits_not_truthy hu] at hadm
  rw [hres]
  exact hadm

/-- With no truthy requester, every result of `search_with_filter` is global. -/
theorem search_with_filter_global {vs : VectorStore} {q : String} {f : SearchFilters}
    {k : ℤ} {u : Option String} (hu : pyTruthy u = false) {res : SearchResult}
    (h : res ∈ vs.search_with_filter q f k u) : res.is_global = true := by
  obtain ⟨r, _, hadm, _, hres⟩ := mem_search_with_filter h
  rw [permissionAdmits_not_truthy hu] at hadm
  rw [hres]
  exact hadm

/-! ### C4 — tool selection -/

/-- A sanity check identifying the two tools the claim names. -/
theorem tools_shape :
    (TOOLS.map (fun t => t.name)) =
      ["pauta", "ata", "votacao", "participantes", "resolucao", "portaria",
       "data_reuniao"] := by decide

/-- C4 (counterexample): `pick_tool("Quando foi a reunião?")` returns the
`"ata"` tool, not the meeting-date tool `"data_reuniao"` the claim promises:
the question contains the detect term `"reunião"` of the earlier `"ata"`
entry, and the first matching tool wins. -/
theorem c4_counterexample :
    (FocalAgent.pick_tool "Quando foi a reunião?").map (fun t => t.name) = some "ata" ∧
      some "ata" ≠ some "data_reuniao" := by
  constructor
  · decide
  · decide

/-- C4 (amended): `pick_tool` returns the first tool of the fixed-priority
table one of whose detect terms occurs as a substring of the lowercased
question (`None` exactly when no tool matches); in particular
`pick_tool("Qual a pauta da próxima reunião?")` is the `"pauta"` tool, and
`pick_tool("Quando foi a reunião?")` is the `"ata"` tool — not
`"data_reuniao"`, whose table entry comes after `"ata"`. -/
theorem c4_tool_selection :
    (∀ q : String,
      FocalAgent.pick_tool q = (TOOLS.filter (toolMatches (pyLower q))).head?) ∧
    (∀ q : String,
      FocalAgent.pick_tool q = none ↔ ∀ t ∈ TOOLS, toolMatches (pyLower q) t = false) ∧
    (FocalAgent.pick_tool "Qual a pauta da próxima reunião?").map (fun t => t.name) =
      some "pauta" ∧
    (FocalAgent.pick_tool "Quando foi a reunião?").map (fun t => t.name) = some "ata" := by
  refine ⟨fun q => ?_, fun q => ?_, by decide, by decide⟩
  · exact (List.filter_head? (toolMatches (pyLower q)) TOOLS).symm
  · rw [FocalAgent.pick_tool, List.find?_eq_none]
    constructor
    · intro h t ht
      exact Bool.eq_false_iff.mpr (h t ht)
    · intro h t ht
      exact fun hc => by rw [h t ht] at hc; exact Bool.false_ne_true hc

/-! ### C5 — fresh store search errors on the missing permission columns -/

/-- C5: `_init_db` creates `documentos` without the `user_id`/`is_global`
columns that the SQL of `search` references, so on a freshly initialized,
empty store the very first `search` fails at statement preparation instead of
returning an empty result list. -/
theorem c5_fresh_store_search_errors :
    VectorStore.searchChecked initDocumentosColumns
        { embed := fun _ => [], rows := [] } "qualquer" 5 none =
      Except.error "no such column: user_id" := rfl

/-- The missing columns, explicitly: `search` references them, `_init_db`
creates neither. -/
theorem c5_schema_gap :
    "user_id" ∈ searchDocumentColumns ∧ "is_global" ∈ searchDocumentColumns ∧
      "user_id" ∉ initDocumentosColumns ∧ "is_global" ∉ initDocumentosColumns := by
  decide

/-! ### C6 — search performs no input validation -/

/-- A concrete global row used by several concrete instantiations. -/
def sampleRow : Row :=
  { chunk_id := 1, conteudo := "Pauta da reunião ordinária",
    embedding := [1, 0], metadata := "{}", posicao := 0, tipo := "pauta",
    titulo := "Pauta 01-2024", numero := "01", data := "2024-03-01",
    conselho := "CONSUNI", user_id := none, is_global := true }

/-- A concrete store over `sampleRow`. -/
noncomputable def sampleStore : VectorStore :=
  { embed := fun _ => [1, 0], rows := [sampleRow] }

/-- C6 (counterexample): a call with an empty query and `k = 0` on a migrated
(fully columned) store is not rejected: it returns the ordinary result `[]`
rather than failing with a descriptive error. -/
theorem c6_counterexample :
    VectorStore.searchChecked migratedDocumentosColumns sampleStore "" 0 none =
      Except.ok [] := by
  have h : sqlPrepare migratedDocumentosColumns searchDocumentColumns =
      Except.ok () := rfl
  show (match sqlPrepare migratedDocumentosColumns searchDocumentColumns with
    | Except.error e => Except.error e
    | Except.ok _ => Except.ok (sampleStore.search "" 0 none)) = Except.ok []
  rw [h]
  rw [VectorStore.search, VectorStore.search_by_embedding, pySliceTo_zero]

/-- C6 (amended): `search` validates neither the query nor `k`.  A call with
`k = 0` returns the empty list normally; an empty query is embedded and
processed exactly like any other query; and a negative `k` is silently applied
as a Python slice, keeping all but the last `-k` admissible results. -/
theorem c6_no_validation (vs : VectorStore) (q : String) (u : Option String) (k : ℤ) :
    vs.search q 0 u = [] ∧
    vs.search "" k u = vs.search_by_embedding (vs.embed "") k u ∧
    (k < 0 → ((vs.search q k u).length : ℤ) =
      max 0 (((vs.rows.filter (permissionAdmits u)).length : ℤ) + k)) := by
  refine ⟨?_, rfl, fun hk => ?_⟩
  · rw [VectorStore.search, VectorStore.search_by_embedding, pySliceTo_zero]
  · rw [VectorStore.search, VectorStore.search_by_embedding, pySliceTo]
    have hL : (List.insertionSort simGE (admissibleScored (vs.embed q) u vs.rows)).length =
        (vs.rows.filter (permissionAdmits u)).length := by
      rw [List.length_insertionSort, admissibleScored, List.length_map]
    rw [if_neg (by omega), List.length_take, hL]
    push_cast [Int.toNat_eq_max]
    omega

/-- C6 (witness): the amended statement applied at the concrete store,
discharging the `k < 0` hypothesis at `k = -1`. -/
theorem c6_witness :
    sampleStore.search "x" 0 none = [] ∧
    ((-1 : ℤ) < 0 ∧ ((sampleStore.search "x" (-1) none).length : ℤ) =
      max 0 (((sampleStore.rows.filter (permissionAdmits none)).length : ℤ) + (-1))) :=
  ⟨(c6_no_validation sampleStore "x" none (-1)).1,
   by decide,
   (c6_no_validation sampleStore "x" none (-1)).2.2 (by decide)⟩

/-! ### C7 — cache round-trip -/

/-- After a user-cache upsert, looking the key up yields the new answer. -/
theorem get_set_user (c : UserCache) (u q a : String) :
    CacheService.get_user_answer (CacheService.set_user_answer c u q a) u q = some a := by
  simp only [CacheService.get_user_answer, CacheService.set_user_answer]
  split
  · rename_i hany
    induction c with
    | nil => simp at hany
    | cons h t ih =>
      rw [List.map_cons, List.find?_cons]
      by_cases hh : (h.user == u && h.normalized == CacheService.normalize_question q) = true
      · simp only [if_pos hh]
        have hκ : (({ h with question := q, answer := a } : UserCacheEntry).user == u &&
            ({ h with question := q, answer := a } : UserCacheEntry).normalized ==
              CacheService.normalize_question q) = true := hh
        simp [hκ]
      · simp only [if_neg hh]
        have hh2 : (h.user == u && h.normalized == CacheService.normalize_question q) = false :=
          Bool.eq_false_iff.mpr hh
        rw [hh2]
        apply ih
        rcases List.any_eq_true.mp hany with ⟨x, hx, hkx⟩
        rcases List.mem_cons.mp hx with rfl | hxt
        · exact absurd hkx hh
        · exact List.any_eq_true.mpr ⟨x, hxt, hkx⟩
  · rename_i hany
    have hnone : List.find?
        (fun e : UserCacheEntry =>
          e.user == u && e.normalized == CacheService.normalize_question q) c = none := by
      rw [List.find?_eq_none]
      intro x hx hkx
      exact hany (List.any_eq_true.mpr ⟨x, hx, hkx⟩)
    rw [List.find?_append, hnone]
    simp [List.find?_cons]

/-- After a global-cache upsert, looking the key up yields the new answer. -/
theorem get_set_global (c : GlobalCache) (q a : String) :
    CacheService.get_global_answer (CacheService.set_global_answer c q a) q = some a := by
  simp only [CacheService.get_global_answer, CacheService.set_global_answer]
  split
  · rename_i hany
    induction c with
    | nil => simp at hany
    | cons h t ih =>
      rw [List.map_cons, List.find?_cons]
      by_cases hh : (h.normalized == CacheService.normalize_question q) = true
      · simp only [if_pos hh]
        have hκ : (({ h with question := q, answer := a } : GlobalCacheEntry).normalized ==
              CacheService.normalize_question q) = true := hh
        simp [hκ]
      · simp only [if_neg hh]
        have hh2 : (h.normalized == CacheService.normalize_question q) = false :=
          Bool.eq_false_iff.mpr hh
        rw [hh2]
        apply ih
        rcases List.any_eq_true.mp hany with ⟨x, hx, hkx⟩
        rcases List.mem_cons.mp hx with rfl | hxt
        · exact absurd hkx hh
        · exact List.any_eq_true.mpr ⟨x, hxt, hkx⟩
  · rename_i hany
    have hnone : List.find?
        (fun e : GlobalCacheEntry => e.normalized == CacheService.normalize_question q)
        c = none := by
      rw [List.find?_eq_none]
      intro x hx hkx
      exact hany (List.any_eq_true.mpr ⟨x, hx, hkx⟩)
    rw [List.find?_append, hnone]
    simp [List.find?_cons]

/-- C7: for either scope and any non-bypassed answer, `set` followed by `get`
returns exactly the answer just stored — the upsert keyed by
`(scope, normalize(question))` overwrites any prior answer. -/
theorem c7_cache_round_trip (cacheU : UserCache) (cacheG : GlobalCache)
    (user_id question answer : String)
    (_hbypass : CacheService.should_bypass_cache answer = false) :
    CacheService.get_user_answer
        (CacheService.set_user_answer cacheU user_id question answer) user_id question =
      some answer ∧
    CacheService.get_global_answer
        (CacheService.set_global_answer cacheG question answer) question = some answer :=
  ⟨get_set_user cacheU user_id question answer, get_set_global cacheG question answer⟩

/-- C7 (witness): the round trip at a concrete scope, question and answer on a
user cache that already holds a conflicting row, discharging the non-bypass
hypothesis. -/
theorem c7_witness :
    CacheService.should_bypass_cache "A pauta é a eleição da reitoria." = false ∧
    (CacheService.get_user_answer
        (CacheService.set_user_answer
          [{ user := "alice", normalized := "qual e a pauta", question := "qual e a pauta",
             answer := "resposta antiga" }]
          "alice" "Qual é a pauta?" "A pauta é a eleição da reitoria.")
        "alice" "Qual é a pauta?" = some "A pauta é a eleição da reitoria." ∧
     CacheService.get_global_answer
        (CacheService.set_global_answer [] "Qual é a pauta?" "A pauta é a eleição da reitoria.")
        "Qual é a pauta?" = some "A pauta é a eleição da reitoria.") :=
  ⟨by decide,
   c7_cache_round_trip
     [{ user := "alice", normalized := "qual e a pauta", question := "qual e a pauta",
        answer := "resposta antiga" }]
     [] "alice" "Qual é a pauta?" "A pauta é a eleição da reitoria." (by decide)⟩

/-! ### C1 — permission-scoped search -/

/-- C1: a chunk of a non-global document owned by user `A` (user ids are
nonempty; Python treats the empty string like an absent requester) never
appears in `search` or `search_by_embedding` results when the requester is a
different user `B` or absent; for requester `A` the chunk is admissible, and
admissibility is exactly global ownership or owner-equals-requester. -/
theorem c1_permission_scoped_search (vs : VectorStore) (e : List ℚ) (query : String)
    (k : ℤ) (A : String) (u : Option String) (hA : A ≠ "")
    (hu : u = none ∨ ∃ B, u = some B ∧ B ≠ A) :
    (∀ res ∈ vs.search_by_embedding e k u,
      ¬(res.is_global = false ∧ res.user_id = some A)) ∧
    (∀ res ∈ vs.search query k u, ¬(res.is_global = false ∧ res.user_id = some A)) ∧
    (∀ r : Row, r.user_id = some A → permissionAdmits (some A) r = true) ∧
    (∀ r : Row, permissionAdmits (some A) r = (r.is_global || r.user_id == some A)) ∧
    (∀ r : Row, permissionAdmits none r = r.is_global) := by
  have key : ∀ (e2 : List ℚ) res, res ∈ vs.search_by_embedding e2 k u →
      ¬(res.is_global = false ∧ res.user_id = some A) := by
    intro e2 res h hcontr
    obtain ⟨r, _, hadm, hres⟩ := mem_search_by_embedding h
    subst hres
    have hg : (mkResult e2 r).is_global = r.is_global := rfl
    have huid : (mkResult e2 r).user_id = r.user_id := rfl
    rw [hg, huid] at hcontr
    rcases hu with rfl | ⟨B, rfl, hBA⟩
    · rw [permissionAdmits_not_truthy (show pyTruthy none = false from rfl)] at hadm
      rw [hcontr.1] at hadm
      exact Bool.noConfusion hadm
    · by_cases hB : B = ""
      · subst hB
        rw [permissionAdmits_not_truthy (show pyTruthy (some "") = false from rfl)] at hadm
        rw [hcontr.1] at hadm
        exact Bool.noConfusion hadm
      · rw [permissionAdmits_truthy hB] at hadm
        rw [hcontr.1, Bool.false_or] at hadm
        have hrB : r.user_id = some B := by simpa using hadm
        rw [hrB] at hcontr
        exact hBA (Option.some.inj hcontr.2)
  refine ⟨fun res h => key e res h, fun res h => key (vs.embed query) res h,
    fun r hr => ?_, fun r => permissionAdmits_truthy hA r,
    fun r => permissionAdmits_not_truthy (show pyTruthy none = false from rfl) r⟩
  · rw [permissionAdmits_truthy hA, hr]
    simp

/-- A private row owned by `"alice"`. -/
def alicePrivateRow : Row :=
  { chunk_id := 2, conteudo := "Documento privado de alice",
    embedding := [0, 1], metadata := "{}", posicao := 0, tipo := "outro",
    titulo := "Privado", numero := "02", data := "2024-04-01",
    conselho := "CONSUNI", user_id := some "alice", is_global := false }

/-- A store holding one global and one `"alice"`-private document. -/
noncomputable def mixedStore : VectorStore :=
  { embed := fun _ => [1, 0], rows := [sampleRow, alicePrivateRow] }

/-- C1 (witness): the theorem applied with owner `"alice"` and requester
`"bob"` on the mixed store. -/
theorem c1_witness :
    ("alice" ≠ "" ∧ (some "bob" = none ∨ ∃ B, some "bob" = some B ∧ B ≠ "alice")) ∧
    ((∀ res ∈ mixedStore.search_by_embedding [1, 0] 5 (some "bob"),
        ¬(res.is_global = false ∧ res.user_id = some "alice")) ∧
      (∀ res ∈ mixedStore.search "Qual é a pauta?" 5 (some "bob"),
        ¬(res.is_global = false ∧ res.user_id = some "alice")) ∧
      (∀ r : Row, r.user_id = some "alice" → permissionAdmits (some "alice") r = true) ∧
      (∀ r : Row, permissionAdmits (some "alice") r =
        (r.is_global || r.user_id == some "alice")) ∧
      (∀ r : Row, permissionAdmits none r = r.is_global)) :=
  ⟨⟨by decide, Or.inr ⟨"bob", rfl, by decide⟩⟩,
   c1_permission_scoped_search mixedStore [1, 0] "Qual é a pauta?" 5 "alice" (some "bob")
     (by decide) (Or.inr ⟨"bob", rfl, by decide⟩)⟩

/-! ### C2 — similarity ranking -/

/-- C2: `search_by_embedding` returns the admissible chunks sorted in
descending cosine-similarity order, truncated to at most `k` results; tied
pairs keep their scan (insertion) order through the stable sort, and an
admissible scan that is already in descending order is returned as its own
`k`-prefix unchanged. -/
theorem c2_similarity_ranking (vs : VectorStore) (e : List ℚ) (k : ℤ) (u : Option String) :
    List.Sorted simGE (vs.search_by_embedding e k u) ∧
    (0 ≤ k → ((vs.search_by_embedding e k u).length : ℤ) ≤ k) ∧
    (∀ a b : SearchResult, simGE a b → [a, b].Sublist (admissibleScored e u vs.rows) →
      [a, b].Sublist (List.insertionSort simGE (admissibleScored e u vs.rows))) ∧
    (List.Sorted simGE (admissibleScored e u vs.rows) →
      vs.search_by_embedding e k u = pySliceTo k (admissibleScored e u vs.rows)) := by
  refine ⟨?_, fun hk => ?_, fun a b hab hsub => List.pair_sublist_insertionSort hab hsub,
    fun hsorted => ?_⟩
  · exact List.Pairwise.sublist (List.take_sublist _ _)
      (List.sorted_insertionSort simGE (admissibleScored e u vs.rows))
  · rw [VectorStore.search_by_embedding, pySliceTo, if_pos hk]
    calc ((List.take k.toNat _).length : ℤ)
        ≤ (k.toNat : ℤ) := by exact_mod_cast List.length_take_le _ _
      _ = k := Int.toNat_of_nonneg hk
  · rw [VectorStore.search_by_embedding, hsorted.insertionSort_eq]

/-- Three global rows whose vectors have cosines `1 > 3/5 > 0` against the
query `[1, 0]`. -/
def rowA : Row :=
  { chunk_id := 1, conteudo := "Ata da primeira reunião", embedding := [1, 0],
    metadata := "{}", posicao := 0, tipo := "ata", titulo := "Ata 01",
    numero := "01", data := "2024-01-10", conselho := "CONSUNI",
    user_id := none, is_global := true }

def rowB : Row :=
  { chunk_id := 2, conteudo := "Ata da segunda reunião", embedding := [3/5, 4/5],
    metadata := "{}", posicao := 0, tipo := "ata", titulo := "Ata 02",
    numero := "02", data := "2024-02-10", conselho := "CONSUNI",
    user_id := none, is_global := true }

def rowC : Row :=
  { chunk_id := 3, conteudo := "Ata da terceira reunião", embedding := [0, 1],
    metadata := "{}", posicao := 0, tipo := "ata", titulo := "Ata 03",
    numero := "03", data := "2024-03-10", conselho := "CONSUNI",
    user_id := none, is_global := true }

noncomputable def rankStore : VectorStore :=
  { embed := fun _ => [1, 0], rows := [rowA, rowB, rowC] }

/-- The three concrete cosine values. -/
theorem cosineSim_rowA : cosineSim [1, 0] [1, 0] = 1 := by
  have hd : dotQ [1, 0] [1, 0] = 1 := by norm_num [dotQ]
  have hn : vecNorm [1, 0] = 1 := by
    rw [vecNorm, hd]
    norm_num
  rw [cosineSim, hd, hn]
  norm_num

theorem cosineSim_rowB : cosineSim [1, 0] [3/5, 4/5] = 3/5 := by
  have hd : dotQ [1, 0] [3/5, 4/5] = 3/5 := by norm_num [dotQ]
  have hd2 : dotQ [3/5, 4/5] [3/5, 4/5] = 1 := by norm_num [dotQ]
  have hn1 : vecNorm [1, 0] = 1 := by
    have : dotQ [1, 0] [1, 0] = 1 := by norm_num [dotQ]
    rw [vecNorm, this]; norm_num
  have hn2 : vecNorm [3/5, 4/5] = 1 := by
    rw [vecNorm, hd2]; norm_num
  rw [cosineSim, hd, hn1, hn2]
  norm_num

theorem cosineSim_rowC : cosineSim [1, 0] [0, 1] = 0 := by
  have hd : dotQ [1, 0] [0, 1] = 0 := by norm_num [dotQ]
  rw [cosineSim, hd]
  norm_num

/-- C2 (witness): on the three-chunk store with strict cosine order
`1 > 3/5 > 0`, `search(q, k=3)` returns the chunks in exactly that order, and
the instantiated theorem gives sortedness and the `k` bound. -/
theorem c2_witness :
    (List.Sorted simGE (rankStore.search_by_embedding [1, 0] 3 none) ∧
      ((0 : ℤ) ≤ 3 ∧ ((rankStore.search_by_embedding [1, 0] 3 none).length : ℤ) ≤ 3)) ∧
    rankStore.search "Qual a pauta?" 3 none =
      [mkResult [1, 0] rowA, mkResult [1, 0] rowB, mkResult [1, 0] rowC] := by
  have hA : (mkResult [1, 0] rowA).similarity = 1 := cosineSim_rowA
  have hB : (mkResult [1, 0] rowB).similarity = 3/5 := cosineSim_rowB
  have hC : (mkResult [1, 0] rowC).similarity = 0 := cosineSim_rowC
  have hsorted : List.Sorted simGE (admissibleScored [1, 0] none rankStore.rows) := by
    show List.Sorted simGE
      [mkResult [1, 0] rowA, mkResult [1, 0] rowB, mkResult [1, 0] rowC]
    refine List.Pairwise.cons ?_ (List.Pairwise.cons ?_
      (List.Pairwise.cons ?_ List.Pairwise.nil))
    · intro b hb
      rcases List.mem_cons.mp hb with rfl | hb
      · show (mkResult [1, 0] rowB).similarity ≤ (mkResult [1, 0] rowA).similarity
        rw [hA, hB]; norm_num
      · rcases List.mem_cons.mp hb with rfl | hb
        · show (mkResult [1, 0] rowC).similarity ≤ (mkResult [1, 0] rowA).similarity
          rw [hA, hC]; norm_num
        · exact absurd hb (List.not_mem_nil _)
    · intro b hb
      rcases List.mem_cons.mp hb with rfl | hb
      · show (mkResult [1, 0] rowC).similarity ≤ (mkResult [1, 0] rowB).similarity
        rw [hB, hC]; norm_num
      · exact absurd hb (List.not_mem_nil _)
    · intro b hb
      exact absurd hb (List.not_mem_nil _)
  refine ⟨⟨?_, by decide, ?_⟩, ?_⟩
  · exact (c2_similarity_ranking rankStore [1, 0] 3 none).1
  · exact (c2_similarity_ranking rankStore [1, 0] 3 none).2.1 (by decide)
  · have heq := (c2_similarity_ranking rankStore [1, 0] 3 none).2.2.2 hsorted
    show rankStore.search_by_embedding [1, 0] 3 none = _
    rw [heq]
    rfl

/-! ### C8 — fact derivation -/

/-- A voting-intent question. -/
def c8Question : String := "Houve votação?"

/-- A chunk whose text contains the claim's phrase, preceded by an earlier
voting phrase that the leftmost regex match picks up instead. -/
def c8BadChunk : String :=
  "9 votos a favor, 8 contra, 7 abstencao e 15 votos a favor, 2 contra, 1 abstenção"

/-- C8 (counterexample): the chunk text contains
`"15 votos a favor, 2 contra, 1 abstenção"`, yet `derive_counts` extracts the
earlier, leftmost voting phrase, and no returned fact contains `"15"`, `"2"`
and `"1"` together. -/
theorem c8_counterexample :
    strContains c8BadChunk "15 votos a favor, 2 contra, 1 abstenção" = true ∧
    CountHelper.derive_counts c8Question [c8BadChunk] =
      ["Votação: 9 a favor, 8 contra, 7 abstenções (total: 24)"] ∧
    (∀ fact ∈ CountHelper.derive_counts c8Question [c8BadChunk],
      ¬(strContains fact "15" = true ∧ strContains fact "2" = true ∧
        strContains fact "1" = true)) := by decide

/-- The voting matcher on any text beginning with the claim's phrase yields
the groups 15, 2, 1, whatever follows. -/
theorem scan_voting_prefix (rest : List Char) :
    scanOpt matchVotingAt ("15 votos a favor, 2 contra, 1 abstenção".data ++ rest) =
      some ("15", "2", "1") := rfl

/-- C8 (amended): for a question with a voting-intent keyword and a chunk
whose text begins with `"15 votos a favor, 2 contra, 1 abstenção"` (so that
the leftmost match is that phrase), `derive_counts` returns a fact containing
`"15"`, `"2"` and `"1"`; and when no voting pattern matches any chunk, the
voting category contributes no facts — and no error. -/
theorem c8_fact_derivation (question : String) (chunks : List String) (content : String)
    (hq : (["votacao", "votação", "voto", "aprovad", "resultado"].any
      (fun t => strContains (pyLower question) t)) = true)
    (hmem : content ∈ chunks)
    (hpre : "15 votos a favor, 2 contra, 1 abstenção".data <+: content.data) :
    (∃ fact ∈ CountHelper.derive_counts question chunks,
      strContains fact "15" = true ∧ strContains fact "2" = true ∧
        strContains fact "1" = true) ∧
    (∀ chunks2 : List String,
      (∀ c ∈ chunks2, scanOpt matchVotingAt c.data = none ∧
        (scanOpt (matchAprovadoAt "unanimidade".data) c.data).isSome = false ∧
        (scanOpt (matchAprovadoAt "maioria".data) c.data).isSome = false) →
      CountHelper.derive_voting_counts chunks2 = []) := by
  constructor
  · obtain ⟨rest, hrest⟩ := hpre
    have hscan : scanOpt matchVotingAt content.data = some ("15", "2", "1") := by
      rw [← hrest]
      exact scan_voting_prefix rest
    have hfact : "Votação: 15 a favor, 2 contra, 1 abstenções (total: 18)" ∈
        votingFactsOfChunk content := by
      rw [votingFactsOfChunk, hscan]
      exact List.mem_append_left _ (List.mem_append_left _ (List.mem_singleton_self _))
    refine ⟨"Votação: 15 a favor, 2 contra, 1 abstenções (total: 18)", ?_,
      by decide, by decide, by decide⟩
    simp only [CountHelper.derive_counts]
    rw [if_pos hq]
    exact List.mem_append_left _ (List.mem_append_left _
      (List.mem_flatMap.mpr ⟨content, hmem, hfact⟩))
  · intro chunks2 hnone
    induction chunks2 with
    | nil => rfl
    | cons c t ih =>
      have h1 := hnone c (List.mem_cons_self c t)
      have ht := ih (fun x hx => hnone x (List.mem_cons_of_mem c hx))
      rw [CountHelper.derive_voting_counts, List.flatMap_cons]
      rw [CountHelper.derive_voting_counts] at ht
      rw [ht]
      have hfc : votingFactsOfChunk c = [] := by
        rw [votingFactsOfChunk, h1.1, h1.2.1, h1.2.2]
        simp
      rw [hfc]
      rfl

/-- C8 (witness): the amended statement at the exact phrase as chunk text. -/
theorem c8_witness :
    ((["votacao", "votação", "voto", "aprovad", "resultado"].any
        (fun t => strContains (pyLower "Houve votação?") t)) = true ∧
      ("15 votos a favor, 2 contra, 1 abstenção" : String) ∈
        ["15 votos a favor, 2 contra, 1 abstenção"] ∧
      "15 votos a favor, 2 contra, 1 abstenção".data <+:
        ("15 votos a favor, 2 contra, 1 abstenção" : String).data) ∧
    (∃ fact ∈ CountHelper.derive_counts "Houve votação?"
        ["15 votos a favor, 2 contra, 1 abstenção"],
      strContains fact "15" = true ∧ strContains fact "2" = true ∧
        strContains fact "1" = true) :=
  ⟨⟨by decide, by decide, by decide⟩,
   (c8_fact_derivation "Houve votação?" ["15 votos a favor, 2 contra, 1 abstenção"]
      "15 votos a favor, 2 contra, 1 abstenção" (by decide) (by decide) (by decide)).1⟩

/-! ### C9, C10 — orchestrator properties -/

/-- A focal-agent run with requester `none` only surfaces global chunks. -/
theorem agent_run_global {vs : VectorStore} {q : String} {k : ℤ} {res : SearchResult}
    (h : res ∈ (FocalAgent.run vs q k none).chunks) : res.is_global = true := by
  rw [FocalAgent.run] at h
  rcases hp : FocalAgent.pick_tool q with _ | tool
  · rw [hp] at h
    exact absurd h (List.not_mem_nil _)
  · rw [hp] at h
    simp only at h
    by_cases hf : (["pauta", "ata", "resolucao", "portaria"].contains tool.name) = true
    · rw [if_pos hf] at h
      exact search_with_filter_global (show pyTruthy none = false from rfl) h
    · rw [if_neg hf] at h
      by_cases hft : (!tool.filter_terms.isEmpty) = true
      · rw [if_pos hft] at h
        have h2 := List.mem_filter.mp (mem_pySliceTo h)
        exact search_by_embedding_global (show pyTruthy none = false from rfl) h2.1
      · rw [if_neg hft] at h
        exact search_by_embedding_global (show pyTruthy none = false from rfl) h

/-- The orchestrator's retrieval step hard-wires requester `None`, so it only
surfaces global chunks. -/
theorem retrieve_global (d : ChatDeps) (q : String) {res : SearchResult}
    (h : res ∈ (ChatService.retrieve d q).1) : res.is_global = true := by
  rw [ChatService.retrieve] at h
  rcases hs : d.store with _ | vs
  · rw [hs] at h
    exact absurd h (List.not_mem_nil _)
  · rw [hs] at h
    simp only at h
    by_cases ha : d.agent = true
    · rw [if_pos ha] at h
      exact agent_run_global h
    · rw [if_neg ha] at h
      exact search_by_embedding_global (show pyTruthy none = false from rfl) h

/-- A missing cache row is never a hit. -/
theorem cacheHit_none (hasCache : Bool) : ChatService.cacheHit hasCache none = none := by
  unfold ChatService.cacheHit
  cases hasCache <;> rfl

/-- An empty user cache never answers. -/
theorem get_user_answer_nil (u q : String) : CacheService.get_user_answer [] u q = none := rfl

/-- With an empty user cache, the chunks surfaced by `answer` do not depend
on the requesting user. -/
theorem answer_chunks_user_independent (d : ChatDeps) (cacheG : GlobalCache) (msg : String)
    (hist : List ChatMessage) (uid1 uid2 : String) :
    (ChatService.answer d [] cacheG msg hist uid1).chunks =
      (ChatService.answer d [] cacheG msg hist uid2).chunks := by
  unfold ChatService.answer
  simp only [get_user_answer_nil, cacheHit_none]
  repeat (first | rfl | split)

set_option maxRecDepth 4096 in
/-- Every chunk surfaced by `answer` is global, whoever asks. -/
theorem answer_chunks_all_global (d : ChatDeps) (cacheU : UserCache) (cacheG : GlobalCache)
    (msg : String) (hist : List ChatMessage) (uid : String) :
    ∀ res ∈ (ChatService.answer d cacheU cacheG msg hist uid).chunks,
      res.is_global = true := by
  intro res h
  unfold ChatService.answer at h
  repeat (first
    | exact absurd h (List.not_mem_nil _)
    | exact retrieve_global _ _ h
    | split at h
    | dsimp only at h)

/-- The storage step either leaves both caches unchanged or the stored
response was nonempty and non-negative. -/
theorem storeStep_or (hasCache : Bool) (cacheU : UserCache) (cacheG : GlobalCache)
    (msg uid t : String) :
    ((ChatService.storeStep hasCache cacheU cacheG msg uid t).1 = cacheU ∧
      (ChatService.storeStep hasCache cacheU cacheG msg uid t).2 = cacheG) ∨
    (t ≠ "" ∧ ChatService.is_negative t = false) := by
  unfold ChatService.storeStep
  split
  · rename_i hcond
    simp only [Bool.and_eq_true, Bool.not_eq_true', beq_eq_false_iff_ne] at hcond
    exact Or.inr ⟨hcond.1.2, hcond.2⟩
  · exact Or.inl ⟨rfl, rfl⟩

/-- Any invocation of `answer` either leaves both caches unchanged or
returns a nonempty, non-negative response. -/
theorem answer_cache_write_char (d : ChatDeps) (cacheU : UserCache) (cacheG : GlobalCache)
    (msg : String) (hist : List ChatMessage) (uid : String) :
    ((ChatService.answer d cacheU cacheG msg hist uid).cacheU = cacheU ∧
      (ChatService.answer d cacheU cacheG msg hist uid).cacheG = cacheG) ∨
    ((ChatService.answer d cacheU cacheG msg hist uid).text ≠ "" ∧
      ChatService.is_negative ((ChatService.answer d cacheU cacheG msg hist uid).text) =
        false) := by
  unfold ChatService.answer
  cases hU : ChatService.cacheHit d.hasCache
      (CacheService.get_user_answer cacheU uid msg) with
  | some c => exact Or.inl ⟨rfl, rfl⟩
  | none =>
    cases hG : ChatService.cacheHit d.hasCache
        (CacheService.get_global_answer cacheG msg) with
    | some c => exact Or.inl ⟨rfl, rfl⟩
    | none =>
      dsimp only
      cases hC : ChatService.clarificationGate d.clarifier msg
          (ChatService.retrieve d
            (match d.rewriter.map (fun rw => rw msg) with
             | some r => r
             | none => msg)).1 with
      | some t => exact Or.inl ⟨rfl, rfl⟩
      | none => exact storeStep_or d.hasCache cacheU cacheG msg uid _

/-- C9: `ChatService.answer` never forwards the requester to retrieval — the
focal agent and the fallback search run with requester `None`, so retrieval
only ever surfaces global chunks; with an empty user cache two invocations
differing only in `user_id` surface exactly the same chunks; and no private
document (the requester's own included) is surfaced through this path. -/
theorem c9_retrieval_ignores_requester :
    (∀ (d : ChatDeps) (q : String), ∀ res ∈ (ChatService.retrieve d q).1,
      res.is_global = true) ∧
    (∀ (d : ChatDeps) (cacheG : GlobalCache) (msg : String) (hist : List ChatMessage)
      (uid1 uid2 : String),
      (ChatService.answer d [] cacheG msg hist uid1).chunks =
        (ChatService.answer d [] cacheG msg hist uid2).chunks) ∧
    (∀ (d : ChatDeps) (cacheU : UserCache) (cacheG : GlobalCache) (msg : String)
      (hist : List ChatMessage) (uid : String),
      ∀ res ∈ (ChatService.answer d cacheU cacheG msg hist uid).chunks,
      res.is_global = true) :=
  ⟨fun d q _ h => retrieve_global d q h,
   fun d cg msg hist uid1 uid2 => answer_chunks_user_independent d cg msg hist uid1 uid2,
   fun d cu cg msg hist uid => answer_chunks_all_global d cu cg msg hist uid⟩

/-- Concrete collaborators over the mixed store. -/
noncomputable def sampleDeps : ChatDeps :=
  { llm := fun _ => "A pauta é a eleição.", store := some mixedStore, agent := true,
    hasCache := true, rewriter := none, counter := true, enricher := none,
    clarifier := none, system_prompt := "Você é um assistente." }

/-- C9 (witness): the theorem at concrete collaborators, corpus, question and
the user pair `"alice"`/`"bob"`. -/
theorem c9_witness :
    (∀ res ∈ (ChatService.retrieve sampleDeps "Qual a pauta?").1, res.is_global = true) ∧
    ((ChatService.answer sampleDeps [] [] "Qual a pauta?" [] "alice").chunks =
      (ChatService.answer sampleDeps [] [] "Qual a pauta?" [] "bob").chunks) ∧
    (∀ res ∈ (ChatService.answer sampleDeps [] [] "Qual a pauta?" [] "alice").chunks,
      res.is_global = true) :=
  ⟨fun res h => c9_retrieval_ignores_requester.1 sampleDeps "Qual a pauta?" res h,
   c9_retrieval_ignores_requester.2.1 sampleDeps [] "Qual a pauta?" [] "alice" "bob",
   fun res h =>
     c9_retrieval_ignores_requester.2.2 sampleDeps [] [] "Qual a pauta?" [] "alice" res h⟩

/-- C10: when the response `answer` produces is negative (per `_is_negative`)
or empty, the invocation leaves both cache tables unchanged — neither
`set_user_answer` nor `set_global_answer` takes effect. -/
theorem c10_no_negative_caching (d : ChatDeps) (cacheU : UserCache) (cacheG : GlobalCache)
    (msg : String) (hist : List ChatMessage) (uid : String)
    (h : ChatService.is_negative
        ((ChatService.answer d cacheU cacheG msg hist uid).text) = true ∨
      (ChatService.answer d cacheU cacheG msg hist uid).text = "") :
    (ChatService.answer d cacheU cacheG msg hist uid).cacheU = cacheU ∧
    (ChatService.answer d cacheU cacheG msg hist uid).cacheG = cacheG := by
  rcases answer_cache_write_char d cacheU cacheG msg hist uid with hL | hR
  · exact hL
  · rcases h with h1 | h2
    · rw [hR.2] at h1
      exact Bool.noConfusion h1
    · exact absurd h2 hR.1

/-- Collaborators whose generation step returns a negative answer. -/
noncomputable def negDeps : ChatDeps :=
  { llm := fun _ => "Não encontrei informações sobre isso.", store := none, agent := false,
    hasCache := true, rewriter := none, counter := false, enricher := none,
    clarifier := none, system_prompt := "s" }

/-- C10 (witness): a concrete invocation whose generated response is negative
leaves the (empty) caches untouched. -/
theorem c10_witness :
    (ChatService.is_negative
        ((ChatService.answer negDeps [] [] "Qual a pauta?" [] "alice").text) = true ∨
      (ChatService.answer negDeps [] [] "Qual a pauta?" [] "alice").text = "") ∧
    ((ChatService.answer negDeps [] [] "Qual a pauta?" [] "alice").cacheU = [] ∧
      (ChatService.answer negDeps [] [] "Qual a pauta?" [] "alice").cacheG = []) := by
  have htext : (ChatService.answer negDeps [] [] "Qual a pauta?" [] "alice").text =
      "Não encontrei informações sobre isso." := rfl
  have hneg : ChatService.is_negative
      ((ChatService.answer negDeps [] [] "Qual a pauta?" [] "alice").text) = true := by
    rw [htext]
    decide
  exact ⟨Or.inl hneg,
    c10_no_negative_caching negDeps [] [] "Qual a pauta?" [] "alice" (Or.inl hneg)⟩

/-! ### C3 — cache-key normalization -/

/-- `Char.ofNat` below the surrogate range keeps the code point. -/
theorem toNat_ofNat_small {n : Nat} (h : n < 55296) : (Char.ofNat n).toNat = n := by
  unfold Char.ofNat
  rw [dif_pos (Or.inl h : Nat.isValidChar n)]
  rfl

/-- Lowercasing is idempotent. -/
theorem pyToLower_idem (c : Char) : pyToLower (pyToLower c) = pyToLower c := by
  unfold pyToLower
  by_cases h1 : 65 ≤ c.toNat ∧ c.toNat ≤ 90
  · rw [if_pos h1]
    have ht : (Char.ofNat (c.toNat + 32)).toNat = c.toNat + 32 :=
      toNat_ofNat_small (by omega)
    rw [if_neg (by omega), if_neg (by omega)]
  · rw [if_neg h1]
    by_cases h2 : 192 ≤ c.toNat ∧ c.toNat ≤ 222 ∧ c.toNat ≠ 215
    · rw [if_pos h2]
      have ht : (Char.ofNat (c.toNat + 32)).toNat = c.toNat + 32 :=
        toNat_ofNat_small (by omega)
      rw [if_neg (by omega), if_neg (by omega)]
    · rw [if_neg h2, if_neg h1, if_neg h2]

/-- Word characters are ASCII. -/
theorem isWordChar_lt (c : Char) (h : isWordChar c = true) : c.toNat < 128 := by
  simp only [isWordChar, Bool.or_eq_true, Bool.and_eq_true, decide_eq_true_eq,
    beq_iff_eq] at h
  omega

/-- Every decomposition-table key is outside ASCII. -/
theorem nfkdTable_keys_large : ∀ e ∈ nfkdTable, 127 < e.1.toNat := by decide

/-- NFKD is the identity on ASCII characters. -/
theorem nfkdChar_ascii {c : Char} (h : c.toNat < 128) : nfkdChar c = [c] := by
  unfold nfkdChar
  rw [List.find?_eq_none.mpr]
  intro e he hbeq
  have heq : e.1 = c := by simpa using hbeq
  have hlarge := nfkdTable_keys_large e he
  rw [heq] at hlarge
  omega

/-- No ASCII character is a combining mark. -/
theorem isCombining_ascii {c : Char} (h : c.toNat < 128) : isCombining c = false := by
  have h2 : ¬(768 ≤ c.toNat) := by omega
  simp [isCombining, h2]

/-- A flatMap of singletons is the identity. -/
theorem flatMap_id_of_mem {α : Type} {f : α → List α} {l : List α}
    (h : ∀ c ∈ l, f c = [c]) : l.flatMap f = l := by
  induction l with
  | nil => rfl
  | cons a t ih =>
    rw [List.flatMap_cons, h a (List.mem_cons_self a t),
      ih (fun c hc => h c (List.mem_cons_of_mem a hc))]
    rfl

/-- A map that fixes every element is the identity. -/
theorem map_id_of_mem {α : Type} {f : α → α} {l : List α}
    (h : ∀ c ∈ l, f c = c) : l.map f = l := by
  induction l with
  | nil => rfl
  | cons a t ih =>
    rw [List.map_cons, h a (List.mem_cons_self a t),
      ih (fun c hc => h c (List.mem_cons_of_mem a hc))]

/-- Stripping only removes characters at the two ends. -/
theorem trimWs_sub (l : List Char) : trimWs l <:+: l := by
  unfold trimWs
  refine List.IsInfix.trans ?_ (List.IsSuffix.isInfix (List.dropWhile_suffix isPyWs))
  apply List.IsPrefix.isInfix
  refine ⟨(List.takeWhile isPyWs (List.dropWhile isPyWs l).reverse).reverse, ?_⟩
  rw [← List.reverse_append, List.takeWhile_append_dropWhile, List.reverse_reverse]

/-- The branch equations of `collapseWs`. -/
theorem collapseWs_cons_not_ws {a : Char} {rest : List Char} (ha : isPyWs a = false) :
    collapseWs (a :: rest) = a :: collapseWs rest := by
  rw [collapseWs.eq_def]
  simp [ha]

theorem collapseWs_singleton_ws {a : Char} (ha : isPyWs a = true) :
    collapseWs [a] = [' '] := by
  rw [collapseWs.eq_def]
  simp [ha]

theorem collapseWs_cons2_ws_ws {a d : Char} {rest2 : List Char} (ha : isPyWs a = true)
    (hd : isPyWs d = true) : collapseWs (a :: d :: rest2) = collapseWs (d :: rest2) := by
  rw [collapseWs.eq_def]
  simp [ha, hd]

theorem collapseWs_cons2_ws_not {a d : Char} {rest2 : List Char} (ha : isPyWs a = true)
    (hd : isPyWs d = false) :
    collapseWs (a :: d :: rest2) = ' ' :: collapseWs (d :: rest2) := by
  rw [collapseWs.eq_def]
  simp [ha, hd]

/-- Whitespace collapsing emits plain spaces and otherwise only characters of
the input that are not whitespace. -/
theorem collapseWs_mem {l : List Char} {c : Char} (h : c ∈ collapseWs l) :
    c = ' ' ∨ (c ∈ l ∧ isPyWs c = false) := by
  induction l with
  | nil => exact absurd h (List.not_mem_nil _)
  | cons a rest ih =>
    by_cases ha : isPyWs a = true
    · cases rest with
      | nil =>
        rw [collapseWs_singleton_ws ha] at h
        exact Or.inl (List.mem_singleton.mp h)
      | cons d r2 =>
        by_cases hd : isPyWs d = true
        · rw [collapseWs_cons2_ws_ws ha hd] at h
          rcases ih h with hc | ⟨hc, hw⟩
          · exact Or.inl hc
          · exact Or.inr ⟨List.mem_cons_of_mem a hc, hw⟩
        · rw [collapseWs_cons2_ws_not ha (Bool.eq_false_iff.mpr hd)] at h
          rcases List.mem_cons.mp h with rfl | h2
          · exact Or.inl rfl
          · rcases ih h2 with hc | ⟨hc, hw⟩
            · exact Or.inl hc
            · exact Or.inr ⟨List.mem_cons_of_mem a hc, hw⟩
    · rw [collapseWs_cons_not_ws (Bool.eq_false_iff.mpr ha)] at h
      rcases List.mem_cons.mp h with rfl | h2
      · exact Or.inr ⟨List.mem_cons_self c rest, Bool.eq_false_iff.mpr ha⟩
      · rcases ih h2 with hc | ⟨hc, hw⟩
        · exact Or.inl hc
        · exact Or.inr ⟨List.mem_cons_of_mem a hc, hw⟩

/-- After collapsing, no two adjacent characters are both whitespace. -/
theorem collapseWs_chain (l : List Char) :
    List.Chain' (fun a b => ¬(isPyWs a = true ∧ isPyWs b = true)) (collapseWs l) := by
  induction l with
  | nil => exact List.chain'_nil
  | cons a rest ih =>
    by_cases ha : isPyWs a = true
    · cases rest with
      | nil =>
        rw [collapseWs_singleton_ws ha]
        exact List.chain'_singleton _
      | cons d r2 =>
        by_cases hd : isPyWs d = true
        · rw [collapseWs_cons2_ws_ws ha hd]
          exact ih
        · have hd2 : isPyWs d = false := Bool.eq_false_iff.mpr hd
          rw [collapseWs_cons2_ws_not ha hd2]
          rw [List.chain'_cons']
          refine ⟨?_, ih⟩
          intro y hy
          rw [collapseWs_cons_not_ws hd2] at hy
          rw [Option.mem_def] at hy
          simp only [List.head?_cons, Option.some.injEq] at hy
          subst hy
          intro hcontr
          rw [hd2] at hcontr
          exact Bool.noConfusion hcontr.2
    · have ha2 : isPyWs a = false := Bool.eq_false_iff.mpr ha
      rw [collapseWs_cons_not_ws ha2]
      rw [List.chain'_cons']
      refine ⟨?_, ih⟩
      intro y hy hcontr
      rw [ha2] at hcontr
      exact Bool.noConfusion hcontr.1

/-- Collapsing fixes a list whose whitespace is plain spaces with no two
adjacent. -/
theorem collapseWs_fixed {l : List Char}
    (h1 : ∀ c ∈ l, isPyWs c = true → c = ' ')
    (h2 : List.Chain' (fun a b => ¬(isPyWs a = true ∧ isPyWs b = true)) l) :
    collapseWs l = l := by
  induction l with
  | nil => rfl
  | cons a rest ih =>
    by_cases ha : isPyWs a = true
    · have haSp : a = ' ' := h1 a (List.mem_cons_self a rest) ha
      cases rest with
      | nil =>
        rw [collapseWs_singleton_ws ha, haSp]
      | cons d r2 =>
        have hd : isPyWs d = false := by
          have hR := (List.chain'_cons.mp h2).1
          cases hdd : isPyWs d
          · rfl
          · exact absurd ⟨ha, hdd⟩ hR
        rw [collapseWs_cons2_ws_not ha hd, haSp,
          ih (fun c hc hw => h1 c (List.mem_cons_of_mem a hc) hw) (List.Chain'.tail h2)]
    · have ha2 : isPyWs a = false := Bool.eq_false_iff.mpr ha
      rw [collapseWs_cons_not_ws ha2,
        ih (fun c hc hw => h1 c (List.mem_cons_of_mem a hc) hw) (List.Chain'.tail h2)]

/-- Characters of a normal form: word characters or single spaces, stable
under lowering, NFKD and combining-mark removal. -/
theorem normalize_output_chars (q : String) :
    ∀ c ∈ (CacheService.normalize_question q).data,
      (isWordChar c || isPyWs c) = true ∧ (isPyWs c = true → c = ' ') ∧
        pyToLower c = c ∧ nfkdChar c = [c] ∧ isCombining c = false := by
  intro c hc
  have hdata : (CacheService.normalize_question q).data =
      collapseWs ((trimWs
        (((q.data.flatMap nfkdChar).filter (fun c => !(isCombining c))).map
          pyToLower)).filter (fun c => isWordChar c || isPyWs c)) := rfl
  rw [hdata] at hc
  rcases collapseWs_mem hc with rfl | ⟨hmem, hw⟩
  · exact ⟨by decide, fun _ => rfl, by decide, by decide, by decide⟩
  · have hfil := List.mem_filter.mp hmem
    have hpred := hfil.2
    have hlower : pyToLower c = c := by
      have h1 : c ∈ (((q.data.flatMap nfkdChar).filter
          (fun c => !(isCombining c))).map pyToLower) :=
        (trimWs_sub _).sublist.subset hfil.1
      obtain ⟨d, _, hd⟩ := List.mem_map.mp h1
      rw [← hd]
      exact pyToLower_idem d
    have hword : isWordChar c = true := by
      cases hwcase : isWordChar c
      · rw [hwcase, Bool.false_or] at hpred
        rw [hw] at hpred
        exact Bool.noConfusion hpred
      · rfl
    have hlt : c.toNat < 128 := isWordChar_lt c hword
    refine ⟨hpred, fun hws => ?_, hlower, nfkdChar_ascii hlt, isCombining_ascii hlt⟩
    rw [hw] at hws
    exact Bool.noConfusion hws

/-- Normalizing a string whose characters are already normal only strips the
boundary whitespace. -/
theorem normalize_of_good (y : List Char)
    (hchars : ∀ c ∈ y, (isWordChar c || isPyWs c) = true ∧ (isPyWs c = true → c = ' ') ∧
      pyToLower c = c ∧ nfkdChar c = [c] ∧ isCombining c = false)
    (hchain : List.Chain' (fun a b => ¬(isPyWs a = true ∧ isPyWs b = true)) y) :
    CacheService.normalize_question ⟨y⟩ = pyStrip ⟨y⟩ := by
  have e1 : y.flatMap nfkdChar = y :=
    flatMap_id_of_mem (fun c hc => (hchars c hc).2.2.2.1)
  have e2 : y.filter (fun c => !(isCombining c)) = y :=
    List.filter_eq_self.mpr (fun c hc => by simp [(hchars c hc).2.2.2.2])
  have e3 : y.map pyToLower = y :=
    map_id_of_mem (fun c hc => (hchars c hc).2.2.1)
  have e4 : (trimWs y).filter (fun c => isWordChar c || isPyWs c) = trimWs y :=
    List.filter_eq_self.mpr
      (fun c hc => (hchars c ((trimWs_sub y).sublist.subset hc)).1)
  have hchainT : List.Chain' (fun a b => ¬(isPyWs a = true ∧ isPyWs b = true))
      (trimWs y) := List.Chain'.infix hchain (trimWs_sub y)
  have e5 : collapseWs (trimWs y) = trimWs y :=
    collapseWs_fixed
      (fun c hc hw => (hchars c ((trimWs_sub y).sublist.subset hc)).2.1 hw) hchainT
  show (⟨collapseWs ((trimWs
      (((y.flatMap nfkdChar).filter (fun c => !(isCombining c))).map pyToLower)).filter
        (fun c => isWordChar c || isPyWs c))⟩ : String) = ⟨trimWs y⟩
  rw [e1, e2, e3, e4, e5]

/-- C3 (amended): re-normalizing equals stripping the normal form's leading
and trailing whitespace — `normalize ∘ normalize = strip ∘ normalize` — so
idempotence holds exactly when the normal form has no boundary whitespace,
which punctuation removal can leave behind. -/
theorem c3_normalize_strip (q : String) :
    CacheService.normalize_question (CacheService.normalize_question q) =
      pyStrip (CacheService.normalize_question q) ∧
    (pyStrip (CacheService.normalize_question q) = CacheService.normalize_question q →
      CacheService.normalize_question (CacheService.normalize_question q) =
        CacheService.normalize_question q) := by
  have h1 : CacheService.normalize_question (CacheService.normalize_question q) =
      pyStrip (CacheService.normalize_question q) := by
    have hchain : List.Chain' (fun a b => ¬(isPyWs a = true ∧ isPyWs b = true))
        (CacheService.normalize_question q).data := collapseWs_chain _
    exact normalize_of_good (CacheService.normalize_question q).data
      (normalize_output_chars q) hchain
  exact ⟨h1, fun h => h1.trans h⟩

/-- C3 (counterexample): `normalize_question` is not idempotent: on `"a ."`
punctuation removal leaves a trailing space after the strip step, so the
normal form is `"a "`, which re-normalizes to `"a"`. -/
theorem c3_counterexample :
    CacheService.normalize_question (CacheService.normalize_question "a .") ≠
      CacheService.normalize_question "a ." ∧
    CacheService.normalize_question "a ." = "a " ∧
    CacheService.normalize_question "a " = "a" := by
  refine ⟨?_, by decide, by decide⟩
  decide

/-- C3 (witness): on the docstring's own example the normal form carries no
boundary whitespace, and the amended statement yields idempotence there. -/
theorem c3_witness :
    pyStrip (CacheService.normalize_question "Qual é a PAUTA??") =
      CacheService.normalize_question "Qual é a PAUTA??" ∧
    CacheService.normalize_question
        (CacheService.normalize_question "Qual é a PAUTA??") =
      CacheService.normalize_question "Qual é a PAUTA??" :=
  ⟨by decide, (c3_normalize_strip "Qual é a PAUTA??").2 (by decide)⟩

/-- C4 (witness): the amended statement applied at the "pauta" example and at
a question matching no tool. -/
theorem c4_witness :
    (FocalAgent.pick_tool "Qual a pauta da próxima reunião?" =
      (TOOLS.filter (toolMatches (pyLower "Qual a pauta da próxima reunião?"))).head?) ∧
    (FocalAgent.pick_tool "bom dia" = none ↔
      ∀ t ∈ TOOLS, toolMatches (pyLower "bom dia") t = false) ∧
    (FocalAgent.pick_tool "Qual a pauta da próxima reunião?").map (fun t => t.name) =
      some "pauta" :=
  ⟨c4_tool_selection.1 "Qual a pauta da próxima reunião?",
   c4_tool_selection.2.1 "bom dia",
   c4_tool_selection.2.2.1⟩
